import Mathlib

/-!
Verification of the wiki animal scraper (files wiki_animal_scraper.py and
wiki_animal_scraper_improved.py) against its natural-language specification.

The embedding is shallow: the pure keyword filters are translated directly;
the HTML fetch-and-parse collaborator is modelled as a function from a URL to
an abstract parsed document (CatDoc for category pages, PageDoc for content
pages), with Except.error standing for a raised fetch exception; the crawl
loop of scrape_animals is a fuel-indexed recursion over an explicit frontier
list and a CrawlState record.  Python sets of strings are modelled as Finset
String (for the visited sets) and as dedup-ed lists (for link collections);
set.pop is modelled as popping the head of the frontier list, which the spec
allows since the pop order is explicitly unspecified.
-/

namespace Scraper

/-- Boolean test that the first list of characters occurs at the start of the
second.  Models the Python str.startswith primitive at character level. -/
def startsList : List Char → List Char → Bool
  | [], _ => true
  | _ :: _, [] => false
  | a :: ps, b :: ss => a == b && startsList ps ss

/-- Boolean test that the first list occurs contiguously somewhere inside the
second.  Models the Python substring operator (pat in s) at character level. -/
def subList : List Char → List Char → Bool
  | [], _ => true
  | _ :: _, [] => false
  | p :: ps, b :: ss => startsList (p :: ps) (b :: ss) || subList (p :: ps) ss

/-- Python (pat in s) on strings. -/
def strContains (s pat : String) : Bool :=
  subList pat.data s.data

/-- Python s.startswith(pat) on strings. -/
def strStarts (pat s : String) : Bool :=
  startsList pat.data s.data

/-- Python s.lower(), modelled per character so that it evaluates inside the
kernel (the keyword sets are ASCII, where per-character lowering agrees with
the Python semantics). -/
def strLower (s : String) : String :=
  String.mk (s.data.map Char.toLower)

/-- The base URL prepended to every discovered href. -/
def base_url : String := "https://en.wikipedia.org"

/-- The topic keyword set of is_animal_category (identical in both scraper
variants). -/
def animal_keywords : List String :=
  ["animals", "fauna", "species", "vertebrates", "invertebrates",
   "mammals", "birds", "reptiles", "amphibians", "fish", "insects",
   "molluscs", "crustaceans", "arachnids", "worms", "endangered",
   "extinct", "wildlife", "_by_", "animal"]

/-- The exclusion keyword set of is_animal_category (identical in both
scraper variants). -/
def exclude_keywords : List String :=
  ["help:", "wikipedia:", "template:", "portal:", "special:", "file:",
   "mediawiki:", "user:", "talk:", "project:"]

/-- WikiAnimalScraper.is_animal_category: lowercase the argument, require at
least one topic keyword and no exclusion keyword as a substring. -/
def is_animal_category (category : String) : Bool :=
  (animal_keywords.any fun keyword => strContains (strLower category) keyword) &&
  !(exclude_keywords.any fun keyword => strContains (strLower category) keyword)

/-- The URL patterns rejected by is_valid_article (identical in both scraper
variants). -/
def invalid_patterns : List String :=
  ["Category:", "File:", "Template:", "Help:", "Wikipedia:", "Portal:", "Special:"]

/-- WikiAnimalScraper.is_valid_article: a URL is a valid article candidate iff
none of the invalid patterns occurs in it. -/
def is_valid_article (url : String) : Bool :=
  !(invalid_patterns.any fun pat => strContains url pat)

/-- Claim C6: is_animal_category is a pure deterministic function of its
string argument (it is a Lean function of the string alone); for every string
that case-insensitively contains an exclusion keyword it returns false, and it
returns true exactly when the lowercased string contains at least one topic
keyword and no exclusion keyword. -/
theorem is_animal_category_spec (category : String) :
    ((∃ k ∈ exclude_keywords, strContains (strLower category) k = true) →
      is_animal_category category = false) ∧
    (is_animal_category category = true ↔
      ((∃ k ∈ animal_keywords, strContains (strLower category) k = true) ∧
       ∀ k ∈ exclude_keywords, strContains (strLower category) k = false)) := by
  constructor
  · rintro ⟨k, hk, hc⟩
    have hB : (exclude_keywords.any fun keyword =>
        strContains (strLower category) keyword) = true :=
      List.any_eq_true.2 ⟨k, hk, hc⟩
    simp [is_animal_category, hB]
  · unfold is_animal_category
    rw [Bool.and_eq_true, Bool.not_eq_true', List.any_eq_true, List.any_eq_false]
    constructor
    · rintro ⟨⟨k, hk, hc⟩, hno⟩
      exact ⟨⟨k, hk, hc⟩, fun k hk => Bool.not_eq_true _ ▸ (by
        have := hno k hk
        simp at this
        simp [this])⟩
    · rintro ⟨⟨k, hk, hc⟩, hno⟩
      exact ⟨⟨k, hk, hc⟩, fun k hk => by simp [hno k hk]⟩

/-- Witness for C6 at a concrete input: a category name containing both a
topic keyword and an exclusion keyword is rejected. -/
theorem is_animal_category_spec_witness :
    is_animal_category "help:animals" = false :=
  (is_animal_category_spec "help:animals").1 ⟨"help:", by decide, by decide⟩

/-- Claim C9: is_valid_article admits a URL iff none of the excluded namespace
patterns occurs in it (category, file, template, help, project alias
Wikipedia, portal, special); in particular every URL containing the project
namespace marker is rejected. -/
theorem is_valid_article_spec (url : String) :
    (is_valid_article url = true ↔
      (strContains url "Category:" = false ∧ strContains url "File:" = false ∧
       strContains url "Template:" = false ∧ strContains url "Help:" = false ∧
       strContains url "Wikipedia:" = false ∧ strContains url "Portal:" = false ∧
       strContains url "Special:" = false)) ∧
    (strContains url "Wikipedia:" = true → is_valid_article url = false) := by
  constructor
  · unfold is_valid_article invalid_patterns
    simp [List.any_cons, List.any_nil, Bool.or_eq_true, Bool.not_eq_true']
  · intro h
    unfold is_valid_article invalid_patterns
    simp [List.any_cons, h]

/-- Witness for C9 at a concrete input: a project-namespace URL is rejected. -/
theorem is_valid_article_spec_witness :
    is_valid_article "https://en.wikipedia.org/wiki/Wikipedia:About" = false :=
  (is_valid_article_spec "https://en.wikipedia.org/wiki/Wikipedia:About").2 (by decide)

/-- Whitespace test for the Python str.strip model. -/
def isSpaceChar (c : Char) : Bool :=
  c == Char.ofNat 32 || c == Char.ofNat 9 || c == Char.ofNat 10 || c == Char.ofNat 13

/-- Python s.strip(): remove leading and trailing whitespace. -/
def strTrim (s : String) : String :=
  String.mk (((s.data.dropWhile isSpaceChar).reverse.dropWhile isSpaceChar).reverse)

/-- Python truthiness test for a string: empty means falsy. -/
def strIsEmpty (s : String) : Bool :=
  s.data.isEmpty

/-- Join character lists with a blank line, as the Python join with two
newline characters does. -/
def join_blank : List (List Char) → List Char
  | [] => []
  | [x] => x
  | x :: y :: xs => x ++ (Char.ofNat 10 :: Char.ofNat 10 :: join_blank (y :: xs))

/-- The body text built by extract_page_info from the direct-child paragraph
texts that survive the unwanted-element removal: strip each paragraph, drop
the empty ones, join the rest with a blank line. -/
def main_text_of (paragraphs : List String) : String :=
  String.mk (join_blank (((paragraphs.map strTrim).filter fun p => !strIsEmpty p).map String.data))

/-- A content record as built by extract_page_info.  The wall-clock timestamp
field of the improved variant is an external collaborator (datetime) and is
not part of any claim, so it is omitted from the model. -/
structure Record where
  title : String
  url : String
  main_text : String
  categories : List String
deriving DecidableEq, Repr

/-- The parsed document of a content page, as seen through the BeautifulSoup
collaborator: the text of the first heading element if present, whether the
content container is present, the link texts of the category footer if
present, whether the parser-output container is present, and the direct-child
paragraph texts remaining after the unwanted-element removal pass. -/
structure PageDoc where
  heading : Option String
  hasContentDiv : Bool
  catlinks : Option (List String)
  hasParserOutput : Bool
  paragraphs : List String
deriving DecidableEq, Repr

/-- The page-admission keyword set used inside extract_page_info (identical
in both scraper variants). -/
def page_keywords : List String :=
  ["animal", "fauna", "species", "mammals", "birds", "reptiles",
   "amphibians", "fish", "insects"]

/-- The category-topicality test applied by the improved extract_page_info:
at least one stripped category text contains a page keyword. -/
def page_topical (doc : PageDoc) : Bool :=
  ((doc.catlinks.getD []).map strTrim).any fun cat =>
    page_keywords.any fun keyword => strContains (strLower cat) keyword

/-- WikiAnimalScraper.extract_page_info of the improved variant.  The whole
body is wrapped in try/except returning None, so the function always returns
Except.ok; a raised fetch is the Except.error input and maps to Except.ok
none.  The field checks follow the source order: heading, stripped title
nonempty, content container, stripped category texts, topicality, parser
output container, nonempty joined body text. -/
def extract_page_info (fetched : Except Unit PageDoc) (url : String) :
    Except Unit (Option Record) :=
  Except.ok (match fetched with
  | Except.error _ => none
  | Except.ok doc =>
    match doc.heading with
    | none => none
    | some t =>
      if strIsEmpty (strTrim t) then none
      else if !doc.hasContentDiv then none
      else if !page_topical doc then none
      else if !doc.hasParserOutput then none
      else if strIsEmpty (main_text_of doc.paragraphs) then none
      else some { title := strTrim t, url := url,
                  main_text := main_text_of doc.paragraphs,
                  categories := (doc.catlinks.getD []).map strTrim })

/-- WikiAnimalScraper.extract_page_info of the original variant: same field
logic but without the surrounding try/except (a raised fetch propagates to
the caller, modelled by Except.error passing through) and without the strip
calls on the title and category texts. -/
def extract_page_info_v0 (fetched : Except Unit PageDoc) (url : String) :
    Except Unit (Option Record) :=
  match fetched with
  | Except.error e => Except.error e
  | Except.ok doc =>
    Except.ok (
      if strIsEmpty (doc.heading.getD "") then none
      else if !doc.hasContentDiv then none
      else if !((doc.catlinks.getD []).any fun cat =>
          page_keywords.any fun keyword => strContains (strLower cat) keyword) then none
      else if !doc.hasParserOutput then none
      else if strIsEmpty (main_text_of doc.paragraphs) then none
      else some { title := doc.heading.getD "", url := url,
                  main_text := main_text_of doc.paragraphs,
                  categories := doc.catlinks.getD [] })

/-- Claim C5 counterexample: in the original variant (wiki_animal_scraper.py,
extract_page_info has no try/except) a fetch that raises propagates out of
extract_page_info, so the claim that extraction never raises past its own
boundary fails for that cited implementation at this concrete input. -/
theorem extract_page_info_raises_counterexample :
    extract_page_info_v0 (Except.error ()) "https://en.wikipedia.org/wiki/Emu"
      = Except.error () := rfl

/-- Claim C5 (amended): the improved variant returns a record or a Rejected
outcome (None) for every fetch or parse outcome and never raises past its own
boundary; a raising fetch becomes a Rejected outcome.  In the original
variant a raising fetch propagates out of extract_page_info (its caller in
scrape_animals catches it, so the crawl still does not abort). -/
theorem extract_page_info_total (fetched : Except Unit PageDoc) (url : String) :
    (∃ out, extract_page_info fetched url = Except.ok out) ∧
    (∀ e : Unit, extract_page_info (Except.error e) url = Except.ok none) ∧
    (∀ e : Unit, extract_page_info_v0 (Except.error e) url = Except.error e) :=
  ⟨⟨_, rfl⟩, fun _ => rfl, fun _ => rfl⟩

/-- The parsed document of a category page: the hrefs found in the three
subcategory-link containers, the hrefs in the pages container (each empty when
the container is absent), and all hrefs on the page (scanned by the original
variant for pagination markers). -/
structure CatDoc where
  mwSubcategories : List String
  mwNormalCatlinks : List String
  mwHiddenCatlinks : List String
  mwPages : List String
  allLinks : List String
deriving DecidableEq, Repr

/-- The admission test for a subcategory href: category-namespace path and
topical name. -/
def subcat_filter (href : String) : Bool :=
  strStarts "/wiki/Category:" href && is_animal_category href

/-- The admission test for a candidate page href: wiki path and no excluded
namespace pattern. -/
def page_filter (href : String) : Bool :=
  strStarts "/wiki/" href && is_valid_article href

/-- WikiAnimalScraper.get_subcategories_and_pages of the improved variant:
fetch the category document, collect admitted subcategory links from the
three containers and admitted page links from the pages container, prepend
the base URL; any exception yields two empty sets; no pagination handling.
The Python sets are modelled as dedup-ed lists. -/
def get_subcategories_and_pages (fetch : String → Except Unit CatDoc)
    (url : String) : List String × List String :=
  match fetch url with
  | Except.error _ => ([], [])
  | Except.ok doc =>
    ((((doc.mwSubcategories ++ doc.mwNormalCatlinks ++ doc.mwHiddenCatlinks).filter
        subcat_filter).map fun h => base_url ++ h).dedup,
     ((doc.mwPages.filter page_filter).map fun h => base_url ++ h).dedup)

/-- The pagination-continuation test of the original variant: the href holds
a pagefrom or pageuntil marker together with the category path, and starts
with one of the two recognised path shapes. -/
def pagination_link (href : String) : Bool :=
  (strContains href "pagefrom=" || strContains href "pageuntil=") &&
  strContains href "Category:" &&
  (strStarts "/w/" href || strStarts "/wiki/" href)

/-- WikiAnimalScraper.get_subcategories_and_pages of the original variant:
same primary extraction (a failing primary fetch propagates), then every
pagination continuation page is fetched and merged into the same result sets
with the same admission rules (subcategories are taken from two of the three
containers on continuation pages, as in the source); a failing continuation
fetch is swallowed. -/
def get_subcategories_and_pages_v0 (fetch : String → Except Unit CatDoc)
    (url : String) : Except Unit (List String × List String) :=
  match fetch url with
  | Except.error e => Except.error e
  | Except.ok doc =>
    Except.ok (((doc.allLinks.filter pagination_link).map fun h => base_url ++ h).foldl
      (fun acc next_page_url =>
        match fetch next_page_url with
        | Except.error _ => acc
        | Except.ok ndoc =>
          ((acc.1 ++ (((ndoc.mwSubcategories ++ ndoc.mwNormalCatlinks).filter
              subcat_filter).map fun h => base_url ++ h)).dedup,
           (acc.2 ++ ((ndoc.mwPages.filter page_filter).map fun h =>
              base_url ++ h)).dedup))
      (((((doc.mwSubcategories ++ doc.mwNormalCatlinks ++ doc.mwHiddenCatlinks).filter
           subcat_filter).map fun h => base_url ++ h).dedup,
        ((doc.mwPages.filter page_filter).map fun h => base_url ++ h).dedup)))

/-- A concrete category fetch environment for C7: the first page of the
category lists pages A and B and carries one pagination-continuation link
whose page lists page C. -/
def paginatedCatFetch : String → Except Unit CatDoc := fun u =>
  if u = "https://en.wikipedia.org/wiki/Category:Birds" then
    Except.ok ⟨[], [], [], ["/wiki/A_bird", "/wiki/B_bird"],
      ["/w/index.php?title=Category:Birds&pagefrom=B"]⟩
  else if u = "https://en.wikipedia.org/w/index.php?title=Category:Birds&pagefrom=B" then
    Except.ok ⟨[], [], [], ["/wiki/C_bird"], []⟩
  else Except.error ()

/-- Claim C7 counterexample: the improved variant (also cited by the claim)
performs no pagination handling at all, so on a category whose first page
lists pages A and B and whose continuation lists C it returns only the
candidate set containing A and B, not the set containing A, B and C. -/
theorem pagination_merge_counterexample :
    ((get_subcategories_and_pages paginatedCatFetch
        "https://en.wikipedia.org/wiki/Category:Birds").2.toFinset
      = ({"https://en.wikipedia.org/wiki/A_bird",
          "https://en.wikipedia.org/wiki/B_bird"} : Finset String)) ∧
    ((get_subcategories_and_pages paginatedCatFetch
        "https://en.wikipedia.org/wiki/Category:Birds").2.toFinset
      ≠ ({"https://en.wikipedia.org/wiki/A_bird",
          "https://en.wikipedia.org/wiki/B_bird",
          "https://en.wikipedia.org/wiki/C_bird"} : Finset String)) := by
  constructor
  · decide
  · decide

/-- Claim C7 (amended): in the original variant, exploration merges the
pagination continuation with the first page under the same link-admission
rules: for every category whose first page lists candidate hrefs A and B and
whose continuation page lists C (all three admissible), the returned
candidate-page set is the set containing exactly the three base-prefixed
URLs.  The improved variant does not handle pagination and returns only the
first page of candidates. -/
theorem pagination_merge_v0 (A B C cont cat : String)
    (hA : page_filter A = true) (hB : page_filter B = true)
    (hC : page_filter C = true) (hcont : pagination_link cont = true)
    (hne : base_url ++ cont ≠ cat) :
    ∃ out, get_subcategories_and_pages_v0
        (fun u => if u = cat then Except.ok ⟨[], [], [], [A, B], [cont]⟩
          else if u = base_url ++ cont then Except.ok ⟨[], [], [], [C], []⟩
          else Except.error ()) cat
      = Except.ok out ∧
      out.2.toFinset = ({base_url ++ A, base_url ++ B, base_url ++ C} : Finset String) ∧
      out.1 = [] := by
  simp only [get_subcategories_and_pages_v0, eq_self_iff_true, if_true]
  refine ⟨_, rfl, ?_, ?_⟩
  · simp only [List.filter_cons, List.filter_nil, hcont, if_true, List.map_cons,
      List.map_nil, List.foldl_cons, List.foldl_nil]
    simp only [hne, if_false, eq_self_iff_true, if_true]
    simp only [List.filter_cons, List.filter_nil, hA, hB, hC, if_true,
      List.map_cons, List.map_nil, List.append_nil, List.nil_append]
    ext x
    simp [List.mem_dedup]
    tauto
  · simp only [List.filter_cons, List.filter_nil, hcont, if_true, List.map_cons,
      List.map_nil, List.foldl_cons, List.foldl_nil]
    simp only [hne, if_false, eq_self_iff_true, if_true]
    simp

/-- Witness for the amended C7 at concrete inputs. -/
theorem pagination_merge_v0_witness :
    ∃ out, get_subcategories_and_pages_v0
        (fun u => if u = "https://en.wikipedia.org/wiki/Category:Birds" then
            Except.ok ⟨[], [], [], ["/wiki/A_bird", "/wiki/B_bird"],
              ["/w/index.php?title=Category:Birds&pagefrom=B"]⟩
          else if u = base_url ++ "/w/index.php?title=Category:Birds&pagefrom=B" then
            Except.ok ⟨[], [], [], ["/wiki/C_bird"], []⟩
          else Except.error ()) "https://en.wikipedia.org/wiki/Category:Birds"
      = Except.ok out ∧
      out.2.toFinset = ({base_url ++ "/wiki/A_bird", base_url ++ "/wiki/B_bird",
        base_url ++ "/wiki/C_bird"} : Finset String) ∧
      out.1 = [] :=
  pagination_merge_v0 "/wiki/A_bird" "/wiki/B_bird" "/wiki/C_bird"
    "/w/index.php?title=Category:Birds&pagefrom=B"
    "https://en.wikipedia.org/wiki/Category:Birds"
    (by decide) (by decide) (by decide) (by decide) (by decide)

/-- The mutable state of WikiAnimalScraper: the visited-page set, the
visited-category set and the accumulated record list.  The frontier is kept
separately by the crawl loop, exactly as category_queue is a local of
scrape_animals. -/
structure CrawlState where
  visited_pages : Finset String
  visited_categories : Finset String
  animal_data : List Record
deriving DecidableEq

/-- The page-processing step of the improved scrape_animals (lines 175 to
198): skip a page URL already in visited_pages; otherwise mark it visited,
run the extractor, and append the record when one with nonempty body text is
returned.  The extractor argument stands for extract_page_info composed with
the page fetch. -/
def process_page (extract : String → Option Record) (s : CrawlState)
    (page_url : String) : CrawlState :=
  if page_url ∈ s.visited_pages then s
  else
    let s1 : CrawlState := { s with visited_pages := insert page_url s.visited_pages }
    match extract page_url with
    | some page_info =>
      if strIsEmpty page_info.main_text then s1
      else { s1 with animal_data := s1.animal_data ++ [page_info] }
    | none => s1

/-- The main loop of the improved scrape_animals, indexed by fuel: pop the
head of the frontier, skip it if already visited, otherwise mark it visited,
explore it, push the discovered subcategories onto the frontier and process
every discovered page.  Returns the final state and the remaining frontier
(empty when the loop drained before the fuel ran out). -/
def crawl_loop (fetchCat : String → Except Unit CatDoc)
    (extract : String → Option Record) :
    Nat → List String → CrawlState → CrawlState × List String
  | 0, queue, s => (s, queue)
  | _ + 1, [], s => (s, [])
  | fuel + 1, current_url :: queue, s =>
    if current_url ∈ s.visited_categories then
      crawl_loop fetchCat extract fuel queue s
    else
      crawl_loop fetchCat extract fuel
        (queue ++ (get_subcategories_and_pages fetchCat current_url).1)
        ((get_subcategories_and_pages fetchCat current_url).2.foldl
          (process_page extract)
          { s with visited_categories := insert current_url s.visited_categories })

/-- WikiAnimalScraper.scrape_animals: seed the frontier with the start
category (unconditionally, as in the source) and run the loop. -/
def scrape_animals (fetchCat : String → Except Unit CatDoc)
    (extract : String → Option Record) (fuel : Nat) (s : CrawlState)
    (start_url : String) : CrawlState × List String :=
  crawl_loop fetchCat extract fuel [start_url] s

/-- WikiAnimalScraper.save_data: serialise the accumulated record list (the
JSON encoding collaborator is modelled as the identity on the record list). -/
def save_data (s : CrawlState) : List Record :=
  s.animal_data

/-- WikiAnimalScraper.load_existing_data as run by the constructor: the
record list is read back from the checkpoint file and visited_pages is
rebuilt as the set of URLs of the loaded records; visited_categories is left
as the constructor initialised it, namely empty. -/
def load_existing_data (l : List Record) : CrawlState :=
  { visited_pages := (l.map Record.url).toFinset,
    visited_categories := ∅,
    animal_data := l }

/-- An extractor is URL-sound when any record it returns carries the URL it
was asked about; extract_page_info builds its record from the input URL, so
the real extractor satisfies this (proved below). -/
def ExtractUrlOk (extract : String → Option Record) : Prop :=
  ∀ u r, extract u = some r → r.url = u

/-- The record URLs are pairwise distinct: at most one record per URL. -/
def UrlsNodup (s : CrawlState) : Prop :=
  (s.animal_data.map Record.url).Nodup

/-- Every record URL is a member of visited_pages. -/
def RecordsVisited (s : CrawlState) : Prop :=
  ∀ r ∈ s.animal_data, r.url ∈ s.visited_pages

/-- The two record-collection invariants together. -/
def StateOk (s : CrawlState) : Prop :=
  UrlsNodup s ∧ RecordsVisited s

/-- The extractor accepted the page: it returned a record with nonempty body
text (the condition under which scrape_animals appends a record). -/
def accept (extract : String → Option Record) (p : String) : Bool :=
  match extract p with
  | some r => !strIsEmpty r.main_text
  | none => false

/-- The record URLs are exactly the accepted members of visited_pages. -/
def RecordsMatchVisited (extract : String → Option Record) (s : CrawlState) : Prop :=
  (s.animal_data.map Record.url).toFinset
    = s.visited_pages.filter fun p => accept extract p = true

/-- The extract_page_info wrapper used by the improved crawl loop: the
caller-side try/except around page processing maps a raised extraction to no
record (unreachable here, since the improved extract_page_info never
raises). -/
def extract_improved (fetchPage : String → Except Unit PageDoc)
    (u : String) : Option Record :=
  match extract_page_info (fetchPage u) u with
  | Except.ok o => o
  | Except.error _ => none

theorem extract_improved_url_ok (fetchPage : String → Except Unit PageDoc) :
    ExtractUrlOk (extract_improved fetchPage) := by
  intro u r h
  unfold extract_improved extract_page_info at h
  rcases hfp : fetchPage u with e | doc <;> rw [hfp] at h
  · simp at h
  · simp only [] at h
    rcases hh : doc.heading with _ | t <;> rw [hh] at h
    · simp at h
    · simp only [ite_eq_iff] at h
      rcases h with ⟨-, h⟩ | ⟨-, h⟩
      · exact Option.noConfusion h
      rcases h with ⟨-, h⟩ | ⟨-, h⟩
      · exact Option.noConfusion h
      rcases h with ⟨-, h⟩ | ⟨-, h⟩
      · exact Option.noConfusion h
      rcases h with ⟨-, h⟩ | ⟨-, h⟩
      · exact Option.noConfusion h
      rcases h with ⟨-, h⟩ | ⟨-, h⟩
      · exact Option.noConfusion h
      cases h
      rfl

theorem process_page_mem (e : String → Option Record) {s : CrawlState}
    {p : String} (h : p ∈ s.visited_pages) : process_page e s p = s := by
  simp [process_page, h]

theorem process_page_visited_pages (e : String → Option Record)
    (s : CrawlState) (p : String) :
    (process_page e s p).visited_pages = insert p s.visited_pages := by
  by_cases hm : p ∈ s.visited_pages
  · rw [process_page_mem e hm, Finset.insert_eq_self.2 hm]
  · simp only [process_page, if_neg hm]
    rcases he : e p with _ | r
    · rfl
    · dsimp only
      split
      · rfl
      · rfl

theorem process_page_visited_categories (e : String → Option Record)
    (s : CrawlState) (p : String) :
    (process_page e s p).visited_categories = s.visited_categories := by
  by_cases hm : p ∈ s.visited_pages
  · rw [process_page_mem e hm]
  · simp only [process_page, if_neg hm]
    rcases he : e p with _ | r
    · rfl
    · dsimp only
      split
      · rfl
      · rfl

theorem process_page_data_reject (e : String → Option Record) {s : CrawlState}
    {p : String} (hm : p ∉ s.visited_pages) (ha : accept e p = false) :
    (process_page e s p).animal_data = s.animal_data := by
  unfold accept at ha
  simp only [process_page, if_neg hm]
  rcases he : e p with _ | r
  · rfl
  · rw [he] at ha
    dsimp only at ha ⊢
    cases hb : strIsEmpty r.main_text
    · rw [hb] at ha
      simp at ha
    · simp [hb]

theorem process_page_data_accept (e : String → Option Record) {s : CrawlState}
    {p : String} {r : Record} (hm : p ∉ s.visited_pages) (he : e p = some r)
    (ht : strIsEmpty r.main_text = false) :
    (process_page e s p).animal_data = s.animal_data ++ [r] := by
  simp only [process_page, if_neg hm, he]
  simp [ht]

theorem accept_true_of (e : String → Option Record) {p : String} {r : Record}
    (he : e p = some r) (ht : strIsEmpty r.main_text = false) :
    accept e p = true := by
  simp [accept, he, ht]

theorem process_page_stateOk (e : String → Option Record) {s : CrawlState}
    (p : String) (hurl : ExtractUrlOk e) (h : StateOk s) :
    StateOk (process_page e s p) := by
  obtain ⟨hn, hv⟩ := h
  by_cases hm : p ∈ s.visited_pages
  · rw [process_page_mem e hm]
    exact ⟨hn, hv⟩
  · have hp_not : p ∉ s.animal_data.map Record.url := by
      intro hp
      rcases List.mem_map.1 hp with ⟨r, hr, hru⟩
      exact hm (hru ▸ hv r hr)
    simp only [process_page, if_neg hm]
    rcases he : e p with _ | r
    · exact ⟨hn, fun r hr => Finset.mem_insert_of_mem (hv r hr)⟩
    · dsimp only
      split
      · exact ⟨hn, fun r hr => Finset.mem_insert_of_mem (hv r hr)⟩
      · have hru : r.url = p := hurl p r he
        constructor
        · unfold UrlsNodup
          dsimp only
          rw [List.map_append, List.map_singleton, hru]
          exact List.Nodup.append hn (List.nodup_singleton p)
            (by simpa [List.disjoint_singleton] using hp_not)
        · intro r' hr'
          dsimp only at hr'
          rcases List.mem_append.1 hr' with h1 | h1
          · exact Finset.mem_insert_of_mem (hv r' h1)
          · rcases List.mem_singleton.1 h1 with rfl
            rw [hru]
            exact Finset.mem_insert_self p _

theorem process_page_rmv (e : String → Option Record) {s : CrawlState}
    (p : String) (hurl : ExtractUrlOk e) (_h : StateOk s)
    (hr : RecordsMatchVisited e s) :
    RecordsMatchVisited e (process_page e s p) := by
  by_cases hm : p ∈ s.visited_pages
  · rw [process_page_mem e hm]
    exact hr
  · unfold RecordsMatchVisited at hr ⊢
    rw [process_page_visited_pages, Finset.filter_insert]
    by_cases ha : accept e p = true
    · rcases haccept : e p with _ | r
      · rw [accept, haccept] at ha
        simp at ha
      · have ht : strIsEmpty r.main_text = false := by
          rw [accept, haccept] at ha
          simpa using ha
        rw [process_page_data_accept e hm haccept ht, if_pos ha,
          List.map_append, List.map_singleton, hurl p r haccept]
        rw [List.toFinset_append, hr]
        simp [Finset.union_comm, Finset.insert_eq]
    · have ha' : accept e p = false := by
        simpa using ha
      rw [process_page_data_reject e hm ha', if_neg ha, hr]

theorem foldl_process_page_pred (e : String → Option Record)
    (P : CrawlState → Prop)
    (hpp : ∀ s p, P s → P (process_page e s p)) :
    ∀ (l : List String) (s : CrawlState), P s →
      P (l.foldl (process_page e) s) := by
  intro l
  induction l with
  | nil => intro s h; exact h
  | cons a l ih =>
    intro s h
    exact ih _ (hpp s a h)

theorem foldl_process_page_visited_pages (e : String → Option Record) :
    ∀ (l : List String) (s : CrawlState),
      (l.foldl (process_page e) s).visited_pages
        = s.visited_pages ∪ l.toFinset := by
  intro l
  induction l with
  | nil => intro s; simp
  | cons a l ih =>
    intro s
    rw [List.foldl_cons, ih, process_page_visited_pages]
    rw [List.toFinset_cons]
    ext x
    simp

theorem foldl_process_page_visited_categories (e : String → Option Record) :
    ∀ (l : List String) (s : CrawlState),
      (l.foldl (process_page e) s).visited_categories
        = s.visited_categories := by
  intro l
  induction l with
  | nil => intro s; rfl
  | cons a l ih =>
    intro s
    rw [List.foldl_cons, ih, process_page_visited_categories]

theorem crawl_loop_pred (fetchCat : String → Except Unit CatDoc)
    (e : String → Option Record) (P : CrawlState → Prop)
    (hcat : ∀ s c, P s →
      P { s with visited_categories := insert c s.visited_categories })
    (hpp : ∀ s p, P s → P (process_page e s p)) :
    ∀ (fuel : Nat) (queue : List String) (s : CrawlState), P s →
      P (crawl_loop fetchCat e fuel queue s).1 := by
  intro fuel
  induction fuel with
  | zero => intro queue s h; exact h
  | succ n ih =>
    intro queue s h
    match queue with
    | [] => exact h
    | c :: t =>
      rw [crawl_loop]
      split
      · exact ih t s h
      · exact ih _ _ (foldl_process_page_pred e P hpp _ _ (hcat s c h))

theorem crawl_loop_visited_pages_mono (fetchCat : String → Except Unit CatDoc)
    (e : String → Option Record) (fuel : Nat) (queue : List String)
    (s : CrawlState) :
    s.visited_pages ⊆ (crawl_loop fetchCat e fuel queue s).1.visited_pages := by
  refine crawl_loop_pred fetchCat e
    (fun s' => s.visited_pages ⊆ s'.visited_pages) ?_ ?_ fuel queue s
    (Finset.Subset.refl _)
  · intro s' c h
    exact h
  · intro s' p h
    rw [process_page_visited_pages]
    exact h.trans (Finset.subset_insert p _)

theorem crawl_loop_visited_categories_mono
    (fetchCat : String → Except Unit CatDoc) (e : String → Option Record)
    (fuel : Nat) (queue : List String) (s : CrawlState) :
    s.visited_categories
      ⊆ (crawl_loop fetchCat e fuel queue s).1.visited_categories := by
  refine crawl_loop_pred fetchCat e
    (fun s' => s.visited_categories ⊆ s'.visited_categories) ?_ ?_ fuel queue s
    (Finset.Subset.refl _)
  · intro s' c h
    exact h.trans (Finset.subset_insert c _)
  · intro s' p h
    rw [process_page_visited_categories]
    exact h

theorem crawl_loop_stateOk (fetchCat : String → Except Unit CatDoc)
    (e : String → Option Record) (hurl : ExtractUrlOk e) (fuel : Nat)
    (queue : List String) (s : CrawlState) (h : StateOk s) :
    StateOk (crawl_loop fetchCat e fuel queue s).1 := by
  refine crawl_loop_pred fetchCat e StateOk ?_ ?_ fuel queue s h
  · rintro s' c ⟨hn, hv⟩
    exact ⟨hn, hv⟩
  · intro s' p h'
    exact process_page_stateOk e p hurl h'

theorem crawl_loop_stateOk_rmv (fetchCat : String → Except Unit CatDoc)
    (e : String → Option Record) (hurl : ExtractUrlOk e) (fuel : Nat)
    (queue : List String) (s : CrawlState) (h : StateOk s)
    (hr : RecordsMatchVisited e s) :
    StateOk (crawl_loop fetchCat e fuel queue s).1 ∧
      RecordsMatchVisited e (crawl_loop fetchCat e fuel queue s).1 := by
  refine crawl_loop_pred fetchCat e
    (fun s' => StateOk s' ∧ RecordsMatchVisited e s') ?_ ?_ fuel queue s ⟨h, hr⟩
  · rintro s' c ⟨⟨hn, hv⟩, hm⟩
    exact ⟨⟨hn, hv⟩, hm⟩
  · rintro s' p ⟨h', hm⟩
    exact ⟨process_page_stateOk e p hurl h', process_page_rmv e p hurl h' hm⟩

/-- Fuel sufficiency: if every explored subcategory link lands inside the
finite category universe U, every category exposes at most B subcategory
links, and every frontier element is in U, then fuel of at least the frontier
length plus (B + 1) times the number of unvisited universe members drains the
frontier completely. -/
theorem crawl_loop_drains (fetchCat : String → Except Unit CatDoc)
    (e : String → Option Record) (U : Finset String) (B : Nat)
    (hclosed : ∀ c x, x ∈ (get_subcategories_and_pages fetchCat c).1 → x ∈ U)
    (hB : ∀ c, (get_subcategories_and_pages fetchCat c).1.length ≤ B) :
    ∀ (fuel : Nat) (queue : List String) (s : CrawlState),
      (∀ c ∈ queue, c ∈ U) →
      queue.length + (U \ s.visited_categories).card * (B + 1) ≤ fuel →
      (crawl_loop fetchCat e fuel queue s).2 = [] := by
  intro fuel
  induction fuel with
  | zero =>
    intro queue s hq hb
    have h0 : queue.length = 0 := by omega
    rw [List.length_eq_zero] at h0
    subst h0
    rfl
  | succ n ih =>
    intro queue s hq hb
    match queue with
    | [] => rfl
    | c :: t =>
      rw [crawl_loop]
      split
      · apply ih t s (fun x hx => hq x (List.mem_cons_of_mem c hx))
        rw [List.length_cons] at hb
        omega
      · next hmem =>
        have hcU : c ∈ U := hq c (List.mem_cons_self c t)
        have hcs : c ∈ U \ s.visited_categories := Finset.mem_sdiff.2 ⟨hcU, hmem⟩
        apply ih
        · intro x hx
          rcases List.mem_append.1 hx with h1 | h1
          · exact hq x (List.mem_cons_of_mem c h1)
          · exact hclosed c x h1
        · rw [foldl_process_page_visited_categories, List.length_append]
          have hlen : (get_subcategories_and_pages fetchCat c).1.length ≤ B := hB c
          have hcard : (U \ insert c s.visited_categories).card + 1
              = (U \ s.visited_categories).card := by
            rw [Finset.sdiff_insert, Finset.card_erase_of_mem hcs]
            have hpos : 0 < (U \ s.visited_categories).card :=
              Finset.card_pos.2 ⟨c, hcs⟩
            omega
          have hsplit : (U \ s.visited_categories).card * (B + 1)
              = (U \ insert c s.visited_categories).card * (B + 1) + (B + 1) := by
            rw [← hcard]
            ring
          rw [List.length_cons] at hb
          rw [hsplit] at hb
          generalize (U \ insert c s.visited_categories).card * (B + 1) = KB at hb ⊢
          omega

/-- The visited-page set is exactly the union of the candidate-page sets of
the visited categories; this invariant is preserved by the loop. -/
theorem crawl_loop_pages_biUnion (fetchCat : String → Except Unit CatDoc)
    (e : String → Option Record) :
    ∀ (fuel : Nat) (queue : List String) (s : CrawlState),
      s.visited_pages = s.visited_categories.biUnion
        (fun c => (get_subcategories_and_pages fetchCat c).2.toFinset) →
      (crawl_loop fetchCat e fuel queue s).1.visited_pages
        = (crawl_loop fetchCat e fuel queue s).1.visited_categories.biUnion
            (fun c => (get_subcategories_and_pages fetchCat c).2.toFinset) := by
  intro fuel
  induction fuel with
  | zero => intro queue s h; exact h
  | succ n ih =>
    intro queue s h
    match queue with
    | [] => exact h
    | c :: t =>
      rw [crawl_loop]
      split
      · exact ih t s h
      · apply ih
        rw [foldl_process_page_visited_pages, foldl_process_page_visited_categories]
        dsimp only
        rw [h, Finset.biUnion_insert]
        exact Finset.union_comm _ _

theorem process_page_recordsVisited (e : String → Option Record)
    {s : CrawlState} (p : String) (hurl : ExtractUrlOk e)
    (hv : RecordsVisited s) : RecordsVisited (process_page e s p) := by
  by_cases hm : p ∈ s.visited_pages
  · rw [process_page_mem e hm]
    exact hv
  · simp only [process_page, if_neg hm]
    rcases he : e p with _ | r
    · exact fun r hr => Finset.mem_insert_of_mem (hv r hr)
    · dsimp only
      split
      · exact fun r hr => Finset.mem_insert_of_mem (hv r hr)
      · intro r' hr'
        dsimp only at hr'
        rcases List.mem_append.1 hr' with h1 | h1
        · exact Finset.mem_insert_of_mem (hv r' h1)
        · have h2 : r' = r := List.mem_singleton.1 h1
          rw [h2, hurl p r he]
          exact Finset.mem_insert_self p _

theorem stateOk_load (l : List Record) (h : (l.map Record.url).Nodup) :
    StateOk (load_existing_data l) := by
  constructor
  · exact h
  · intro r hr
    exact List.mem_toFinset.2 (List.mem_map.2 ⟨r, hr, rfl⟩)

/-- Claim C2: a page URL already in visited_pages, offered again to the
engine, leaves the state untouched (so no record is appended for it) and the
outcome is independent of the extractor, which is therefore never invoked;
consequently the pairwise distinctness of record URLs is preserved by every
page offer and by the whole crawl loop, so the record collection holds at
most one record per URL at every point of a run. -/
theorem idempotent_readmission :
    (∀ (e e' : String → Option Record) (s : CrawlState) (u : String),
      u ∈ s.visited_pages →
        process_page e s u = s ∧ process_page e s u = process_page e' s u) ∧
    (∀ (e : String → Option Record) (s : CrawlState) (u : String),
      ExtractUrlOk e → StateOk s → UrlsNodup (process_page e s u)) ∧
    (∀ (fetchCat : String → Except Unit CatDoc) (e : String → Option Record)
      (fuel : Nat) (queue : List String) (s : CrawlState),
      ExtractUrlOk e → StateOk s →
        UrlsNodup (crawl_loop fetchCat e fuel queue s).1) := by
  refine ⟨?_, ?_, ?_⟩
  · intro e e' s u h
    exact ⟨process_page_mem e h, by rw [process_page_mem e h, process_page_mem e' h]⟩
  · intro e s u hurl h
    exact (process_page_stateOk e u hurl h).1
  · intro fc e fuel q s hurl h
    exact (crawl_loop_stateOk fc e hurl fuel q s h).1

/-- Witness for C2 at concrete inputs. -/
theorem idempotent_readmission_witness :
    process_page (fun _ => none)
        ⟨{"https://en.wikipedia.org/wiki/Emu"}, ∅, []⟩
        "https://en.wikipedia.org/wiki/Emu"
      = ⟨{"https://en.wikipedia.org/wiki/Emu"}, ∅, []⟩ ∧
    UrlsNodup (crawl_loop (fun _ => Except.error ()) (fun _ => none) 3 []
      ⟨∅, ∅, []⟩).1 :=
  ⟨(idempotent_readmission.1 (fun _ => none) (fun _ => none) _ _ (by decide)).1,
   idempotent_readmission.2.2 (fun _ => Except.error ()) (fun _ => none) 3 [] _
     (fun _ _ h => Option.noConfusion h)
     ⟨by unfold UrlsNodup; simp, fun r hr => absurd hr (by simp)⟩⟩

/-- Claim C3: saving a crawl state holding K records and reloading yields a
visited-page set of size exactly K and a record sequence equal field for
field to the saved one; the visited-category set (and hence any frontier
information) is not part of the round trip and comes back empty.  The
hypothesis is the crawl-state uniqueness invariant (at most one record per
URL), which every reachable state satisfies by the C2 theorem. -/
theorem checkpoint_round_trip (s : CrawlState) (h : UrlsNodup s) :
    (load_existing_data (save_data s)).animal_data = s.animal_data ∧
    (load_existing_data (save_data s)).visited_pages.card = s.animal_data.length ∧
    (load_existing_data (save_data s)).visited_categories = ∅ := by
  refine ⟨rfl, ?_, rfl⟩
  unfold load_existing_data save_data
  dsimp only
  rw [List.toFinset_card_of_nodup h, List.length_map]

/-- Witness for C3 at a concrete two-record state. -/
theorem checkpoint_round_trip_witness :
    (load_existing_data (save_data
        ⟨{"https://en.wikipedia.org/wiki/Emu", "https://en.wikipedia.org/wiki/Kiwi"},
         {"https://en.wikipedia.org/wiki/Category:Birds"},
         [⟨"Emu", "https://en.wikipedia.org/wiki/Emu", "The emu.", ["Birds"]⟩,
          ⟨"Kiwi", "https://en.wikipedia.org/wiki/Kiwi", "The kiwi.", ["Birds"]⟩]⟩)).animal_data
      = [⟨"Emu", "https://en.wikipedia.org/wiki/Emu", "The emu.", ["Birds"]⟩,
         ⟨"Kiwi", "https://en.wikipedia.org/wiki/Kiwi", "The kiwi.", ["Birds"]⟩] ∧
    (load_existing_data (save_data
        ⟨{"https://en.wikipedia.org/wiki/Emu", "https://en.wikipedia.org/wiki/Kiwi"},
         {"https://en.wikipedia.org/wiki/Category:Birds"},
         [⟨"Emu", "https://en.wikipedia.org/wiki/Emu", "The emu.", ["Birds"]⟩,
          ⟨"Kiwi", "https://en.wikipedia.org/wiki/Kiwi", "The kiwi.", ["Birds"]⟩]⟩)).visited_pages.card
      = 2 ∧
    (load_existing_data (save_data
        ⟨{"https://en.wikipedia.org/wiki/Emu", "https://en.wikipedia.org/wiki/Kiwi"},
         {"https://en.wikipedia.org/wiki/Category:Birds"},
         [⟨"Emu", "https://en.wikipedia.org/wiki/Emu", "The emu.", ["Birds"]⟩,
          ⟨"Kiwi", "https://en.wikipedia.org/wiki/Kiwi", "The kiwi.", ["Birds"]⟩]⟩)).visited_categories
      = ∅ :=
  checkpoint_round_trip
    ⟨{"https://en.wikipedia.org/wiki/Emu", "https://en.wikipedia.org/wiki/Kiwi"},
     {"https://en.wikipedia.org/wiki/Category:Birds"},
     [⟨"Emu", "https://en.wikipedia.org/wiki/Emu", "The emu.", ["Birds"]⟩,
      ⟨"Kiwi", "https://en.wikipedia.org/wiki/Kiwi", "The kiwi.", ["Birds"]⟩]⟩
    (by unfold UrlsNodup; decide)

/-- Claim C4: the real extractor is URL-sound; for any URL-sound extractor,
every record URL being visited is preserved by the page step and by the whole
crawl loop, the visited-page and visited-category sets never lose elements
across the page step and the loop, and the rehydrated startup state satisfies
the record invariant as well.  Checkpointing (save_data) reads the state
without mutating it, so it preserves all three trivially. -/
theorem crawl_state_invariant :
    (∀ fetchPage : String → Except Unit PageDoc,
      ExtractUrlOk (extract_improved fetchPage)) ∧
    (∀ (e : String → Option Record) (s : CrawlState) (u : String),
      ExtractUrlOk e →
        ((RecordsVisited s → RecordsVisited (process_page e s u)) ∧
         s.visited_pages ⊆ (process_page e s u).visited_pages ∧
         s.visited_categories ⊆ (process_page e s u).visited_categories)) ∧
    (∀ (fetchCat : String → Except Unit CatDoc) (e : String → Option Record)
      (fuel : Nat) (queue : List String) (s : CrawlState),
      ExtractUrlOk e →
        ((RecordsVisited s → RecordsVisited (crawl_loop fetchCat e fuel queue s).1) ∧
         s.visited_pages ⊆ (crawl_loop fetchCat e fuel queue s).1.visited_pages ∧
         s.visited_categories ⊆ (crawl_loop fetchCat e fuel queue s).1.visited_categories)) ∧
    (∀ l : List Record, RecordsVisited (load_existing_data l)) := by
  refine ⟨extract_improved_url_ok, ?_, ?_, ?_⟩
  · intro e s u hurl
    refine ⟨fun hv => process_page_recordsVisited e u hurl hv, ?_, ?_⟩
    · rw [process_page_visited_pages]
      exact Finset.subset_insert u _
    · rw [process_page_visited_categories]
  · intro fc e fuel q s hurl
    refine ⟨?_, crawl_loop_visited_pages_mono fc e fuel q s,
      crawl_loop_visited_categories_mono fc e fuel q s⟩
    intro hv
    exact crawl_loop_pred fc e RecordsVisited (fun s' c h => by
        intro r hr
        exact h r hr)
      (fun s' p h => process_page_recordsVisited e p hurl h) fuel q s hv
  · intro l r hr
    exact List.mem_toFinset.2 (List.mem_map.2 ⟨r, hr, rfl⟩)

/-- Witness for C4 at concrete inputs. -/
theorem crawl_state_invariant_witness :
    RecordsVisited (process_page (fun _ => none) ⟨∅, ∅, []⟩
      "https://en.wikipedia.org/wiki/Emu") ∧
    RecordsVisited (load_existing_data
      [⟨"Emu", "https://en.wikipedia.org/wiki/Emu", "The emu.", ["Birds"]⟩]) :=
  ⟨(crawl_state_invariant.2.1 (fun _ => none) ⟨∅, ∅, []⟩
      "https://en.wikipedia.org/wiki/Emu" (fun _ _ h => Option.noConfusion h)).1
      (fun r hr => absurd hr (by simp)),
   crawl_state_invariant.2.2.2
     [⟨"Emu", "https://en.wikipedia.org/wiki/Emu", "The emu.", ["Birds"]⟩]⟩

/-- Claim C8 counterexample: visited-category membership is not persisted.
Saving a state whose visited-category set holds the start category and
rehydrating yields an empty visited-category set, which does not reflect the
prior run. -/
theorem visited_categories_not_persisted_counterexample :
    (load_existing_data (save_data
        ⟨{"https://en.wikipedia.org/wiki/Emu"},
         {"https://en.wikipedia.org/wiki/Category:Animals"},
         [⟨"Emu", "https://en.wikipedia.org/wiki/Emu", "The emu.", ["Birds"]⟩]⟩)).visited_categories
      = (∅ : Finset String) ∧
    ({"https://en.wikipedia.org/wiki/Category:Animals"} : Finset String)
      ≠ (∅ : Finset String) :=
  ⟨rfl, by decide⟩

/-- Claim C8 (amended): the checkpoint persists only the record list;
rehydration rebuilds visited_pages from the record URLs and always leaves
visited_categories empty, and scrape_animals always seeds the frontier with
the start category, so on every resume the start category is explored again
(it is never found in the rehydrated visited-category set). -/
theorem resume_restores_records_only (l : List Record) (start_url : String)
    (fetchCat : String → Except Unit CatDoc) (e : String → Option Record)
    (fuel : Nat) (hfuel : 0 < fuel) :
    (load_existing_data l).visited_categories = ∅ ∧
    (load_existing_data l).visited_pages = (l.map Record.url).toFinset ∧
    start_url ∈ (scrape_animals fetchCat e fuel (load_existing_data l)
      start_url).1.visited_categories := by
  refine ⟨rfl, rfl, ?_⟩
  unfold scrape_animals
  obtain ⟨n, rfl⟩ : ∃ n, fuel = n + 1 := ⟨fuel - 1, by omega⟩
  rw [crawl_loop]
  rw [if_neg (by simp [load_existing_data])]
  refine crawl_loop_visited_categories_mono fetchCat e n _ _ ?_
  rw [foldl_process_page_visited_categories]
  exact Finset.mem_insert_self _ _

/-- Witness for the amended C8 at concrete inputs. -/
theorem resume_restores_records_only_witness :
    (load_existing_data []).visited_categories = ∅ ∧
    (load_existing_data []).visited_pages
      = (([] : List Record).map Record.url).toFinset ∧
    "https://en.wikipedia.org/wiki/Category:Animals"
      ∈ (scrape_animals (fun _ => Except.error ()) (fun _ => none) 1
          (load_existing_data [])
          "https://en.wikipedia.org/wiki/Category:Animals").1.visited_categories :=
  resume_restores_records_only [] "https://en.wikipedia.org/wiki/Category:Animals"
    (fun _ => Except.error ()) (fun _ => none) 1 (by decide)

/-- Claim C10: rehydration rebuilds visited_pages as exactly the URLs of the
loaded records; hence a page that was fetched but rejected before (no record,
so not in the rebuilt set) is offered to the extractor again and its record
is appended when extraction now succeeds, while a page whose record was
persisted is skipped untouched; and the at-most-one-record-per-URL invariant
survives a full checkpoint, reload and further crawling cycle. -/
theorem rehydration_exact :
    (∀ l : List Record,
      (load_existing_data l).visited_pages = (l.map Record.url).toFinset) ∧
    (∀ (l : List Record) (e : String → Option Record) (p : String) (r : Record),
      p ∉ l.map Record.url → e p = some r → strIsEmpty r.main_text = false →
      (process_page e (load_existing_data l) p).animal_data = l ++ [r]) ∧
    (∀ (l : List Record) (e : String → Option Record) (r : Record), r ∈ l →
      process_page e (load_existing_data l) r.url = load_existing_data l) ∧
    (∀ (fetchCat : String → Except Unit CatDoc) (e : String → Option Record)
      (fuel fuel2 : Nat) (queue queue2 : List String) (s : CrawlState),
      ExtractUrlOk e → StateOk s →
      UrlsNodup (crawl_loop fetchCat e fuel2 queue2 (load_existing_data
        (save_data (crawl_loop fetchCat e fuel queue s).1))).1) := by
  refine ⟨fun l => rfl, ?_, ?_, ?_⟩
  · intro l e p r hp he ht
    have hm : p ∉ (load_existing_data l).visited_pages := by
      intro hmem
      exact hp (List.mem_toFinset.1 hmem)
    exact process_page_data_accept e hm he ht
  · intro l e r hr
    exact process_page_mem e
      (List.mem_toFinset.2 (List.mem_map.2 ⟨r, hr, rfl⟩))
  · intro fc e fuel fuel2 q q2 s hurl h
    have h1 : StateOk (crawl_loop fc e fuel q s).1 :=
      crawl_loop_stateOk fc e hurl fuel q s h
    have h2 : StateOk (load_existing_data (save_data (crawl_loop fc e fuel q s).1)) :=
      stateOk_load _ h1.1
    exact (crawl_loop_stateOk fc e hurl fuel2 q2 _ h2).1

/-- Witness for C10 at concrete inputs: a previously rejected page URL is
re-extracted on resume and recorded, and a persisted record URL is skipped. -/
theorem rehydration_exact_witness :
    (process_page
        (fun _ => some ⟨"Kiwi", "https://en.wikipedia.org/wiki/Kiwi", "The kiwi.", ["Birds"]⟩)
        (load_existing_data
          [⟨"Emu", "https://en.wikipedia.org/wiki/Emu", "The emu.", ["Birds"]⟩])
        "https://en.wikipedia.org/wiki/Kiwi").animal_data
      = [⟨"Emu", "https://en.wikipedia.org/wiki/Emu", "The emu.", ["Birds"]⟩,
         ⟨"Kiwi", "https://en.wikipedia.org/wiki/Kiwi", "The kiwi.", ["Birds"]⟩] ∧
    process_page (fun _ => none)
        (load_existing_data
          [⟨"Emu", "https://en.wikipedia.org/wiki/Emu", "The emu.", ["Birds"]⟩])
        (Record.url ⟨"Emu", "https://en.wikipedia.org/wiki/Emu", "The emu.", ["Birds"]⟩)
      = load_existing_data
          [⟨"Emu", "https://en.wikipedia.org/wiki/Emu", "The emu.", ["Birds"]⟩] :=
  ⟨rehydration_exact.2.1
      [⟨"Emu", "https://en.wikipedia.org/wiki/Emu", "The emu.", ["Birds"]⟩]
      (fun _ => some ⟨"Kiwi", "https://en.wikipedia.org/wiki/Kiwi", "The kiwi.", ["Birds"]⟩)
      "https://en.wikipedia.org/wiki/Kiwi"
      ⟨"Kiwi", "https://en.wikipedia.org/wiki/Kiwi", "The kiwi.", ["Birds"]⟩
      (by decide) rfl (by decide),
   rehydration_exact.2.2.1
      [⟨"Emu", "https://en.wikipedia.org/wiki/Emu", "The emu.", ["Birds"]⟩]
      (fun _ => none)
      ⟨"Emu", "https://en.wikipedia.org/wiki/Emu", "The emu.", ["Birds"]⟩
      (by simp)⟩

/-- A page document is well formed when every extraction check other than
topicality passes: nonempty stripped heading, content container present,
parser-output container present, and nonempty joined body text. -/
def wf_page_doc (doc : PageDoc) : Bool :=
  (match doc.heading with
   | some t => !strIsEmpty (strTrim t)
   | none => false) &&
  doc.hasContentDiv && doc.hasParserOutput &&
  !strIsEmpty (main_text_of doc.paragraphs)

/-- Well-formedness of a fetch outcome: the fetch succeeded and the document
is well formed. -/
def wf_fetched (f : Except Unit PageDoc) : Bool :=
  match f with
  | Except.ok doc => wf_page_doc doc
  | Except.error _ => false

/-- The category-topicality filter evaluated on a fetch outcome. -/
def topical_fetched (f : Except Unit PageDoc) : Bool :=
  match f with
  | Except.ok doc => page_topical doc
  | Except.error _ => false

/-- Unconditionally, the extractor accepts a page exactly when the fetched
document passes the category-topicality filter AND is well formed: this is
the precise acceptance condition of extract_page_info, read off its check
sequence. -/
theorem accept_eq_topical_wf (fetchPage : String → Except Unit PageDoc)
    (p : String) :
    accept (extract_improved fetchPage) p
      = (topical_fetched (fetchPage p) && wf_fetched (fetchPage p)) := by
  rcases hfp : fetchPage p with e | doc
  · simp [accept, extract_improved, extract_page_info, topical_fetched,
      wf_fetched, hfp]
  · rcases hh : doc.heading with _ | t
    · simp [accept, extract_improved, extract_page_info, topical_fetched,
        wf_fetched, wf_page_doc, hfp, hh]
    · cases ht : strIsEmpty (strTrim t) <;>
        cases hcd : doc.hasContentDiv <;>
        cases hpt : page_topical doc <;>
        cases hpo : doc.hasParserOutput <;>
        cases hmt : strIsEmpty (main_text_of doc.paragraphs) <;>
        simp [accept, extract_improved, extract_page_info, topical_fetched,
          wf_fetched, wf_page_doc, hfp, hh, ht, hcd, hpt, hpo, hmt]

/-- Claim C1 (amended): for every finite category graph (a universe U closed
under subcategory exploration with at most B subcategory links per category,
formalising the claim's finiteness premise), the crawl loop of scrape_animals
started on the empty state drains the frontier within 1 + card U * (B + 1)
iterations (it reaches the Drained shape with an empty frontier), and the
final record count equals the number of distinct discovered pages (those
listed by the explored categories, which already passed the URL-namespace
filter) that pass the category-topicality filter AND whose documents are well
formed (nonempty stripped title, content container, parser-output container,
nonempty body text).  The amendment relative to the literal claim is the
added well-formedness conjunct in the counting predicate: a page passing
both filters whose document yields an empty body produces no record, see the
counterexample. -/
theorem scrape_animals_drains_and_counts
    (fetchCat : String → Except Unit CatDoc)
    (fetchPage : String → Except Unit PageDoc)
    (U : Finset String) (B : Nat) (start_url : String)
    (hstart : start_url ∈ U)
    (hclosed : ∀ c x, x ∈ (get_subcategories_and_pages fetchCat c).1 → x ∈ U)
    (hB : ∀ c, (get_subcategories_and_pages fetchCat c).1.length ≤ B) :
    (scrape_animals fetchCat (extract_improved fetchPage)
        (1 + U.card * (B + 1)) ⟨∅, ∅, []⟩ start_url).2 = [] ∧
    (scrape_animals fetchCat (extract_improved fetchPage)
        (1 + U.card * (B + 1)) ⟨∅, ∅, []⟩ start_url).1.animal_data.length =
      (((scrape_animals fetchCat (extract_improved fetchPage)
            (1 + U.card * (B + 1)) ⟨∅, ∅, []⟩ start_url).1.visited_categories.biUnion
          (fun c => (get_subcategories_and_pages fetchCat c).2.toFinset)).filter
        (fun p => (topical_fetched (fetchPage p) && wf_fetched (fetchPage p))
          = true)).card := by
  have hurl := extract_improved_url_ok fetchPage
  constructor
  · unfold scrape_animals
    apply crawl_loop_drains fetchCat _ U B hclosed hB
    · intro c hc
      have h1 : c = start_url := List.mem_singleton.1 hc
      rw [h1]
      exact hstart
    · dsimp only
      rw [Finset.sdiff_empty, List.length_singleton]
  · unfold scrape_animals
    have hinit : StateOk (⟨∅, ∅, []⟩ : CrawlState) :=
      ⟨by unfold UrlsNodup; simp, fun r hr => absurd hr (by simp)⟩
    have hrmv0 : RecordsMatchVisited (extract_improved fetchPage)
        (⟨∅, ∅, []⟩ : CrawlState) := by
      unfold RecordsMatchVisited
      simp
    obtain ⟨⟨hnodup, -⟩, hrmv⟩ := crawl_loop_stateOk_rmv fetchCat
      (extract_improved fetchPage) hurl (1 + U.card * (B + 1)) [start_url]
      ⟨∅, ∅, []⟩ hinit hrmv0
    have hbi := crawl_loop_pages_biUnion fetchCat (extract_improved fetchPage)
      (1 + U.card * (B + 1)) [start_url] ⟨∅, ∅, []⟩ (by simp)
    have h1 : (crawl_loop fetchCat (extract_improved fetchPage)
        (1 + U.card * (B + 1)) [start_url] ⟨∅, ∅, []⟩).1.animal_data.length
        = ((crawl_loop fetchCat (extract_improved fetchPage)
            (1 + U.card * (B + 1)) [start_url]
            ⟨∅, ∅, []⟩).1.animal_data.map Record.url).toFinset.card := by
      rw [List.toFinset_card_of_nodup hnodup, List.length_map]
    rw [h1, hrmv, hbi]
    congr 1
    apply Finset.filter_congr
    intro p _hp
    rw [accept_eq_topical_wf fetchPage p]

/-- A category environment for the C1 counterexample: the start category
lists one candidate page and no subcategories. -/
def emptyBodyCatFetch : String → Except Unit CatDoc := fun u =>
  if u = "https://en.wikipedia.org/wiki/Category:Animals" then
    Except.ok ⟨[], [], [], ["/wiki/Emu"], []⟩
  else Except.error ()

/-- A page environment for the C1 counterexample: the page passes the URL
namespace filter, carries a topical category footer, but its content has no
paragraphs, so extraction yields no record. -/
def emptyBodyPageFetch : String → Except Unit PageDoc := fun u =>
  if u = "https://en.wikipedia.org/wiki/Emu" then
    Except.ok ⟨some "Emu", true, some ["Birds of Australia"], true, []⟩
  else Except.error ()

/-- Claim C1 counterexample: on this finite graph the loop drains, the single
discovered page passes both the URL-namespace filter and the
category-topicality filter, yet the final record count is 0 and not 1,
because the page body text is empty; so the literal count equation of the
claim fails on the code. -/
theorem scrape_count_counterexample :
    (scrape_animals emptyBodyCatFetch (extract_improved emptyBodyPageFetch) 2
        ⟨∅, ∅, []⟩ "https://en.wikipedia.org/wiki/Category:Animals").2 = [] ∧
    (scrape_animals emptyBodyCatFetch (extract_improved emptyBodyPageFetch) 2
        ⟨∅, ∅, []⟩ "https://en.wikipedia.org/wiki/Category:Animals").1.animal_data.length
      = 0 ∧
    (((scrape_animals emptyBodyCatFetch (extract_improved emptyBodyPageFetch) 2
          ⟨∅, ∅, []⟩ "https://en.wikipedia.org/wiki/Category:Animals").1.visited_categories.biUnion
        (fun c => (get_subcategories_and_pages emptyBodyCatFetch c).2.toFinset)).filter
      (fun p => topical_fetched (emptyBodyPageFetch p) = true)).card = 1 := by
  refine ⟨by decide, by decide, by decide⟩

/-- A mixed environment for the C1 witness: the start category lists two
candidate pages, both passing the URL-namespace filter and the topicality
filter; one is well formed, the other has an empty body, so exactly one
record results (the case distinguishing the amended count from the literal
one). -/
def mixedCatFetch : String → Except Unit CatDoc := fun u =>
  if u = "https://en.wikipedia.org/wiki/Category:Animals" then
    Except.ok ⟨[], [], [], ["/wiki/Emu", "/wiki/Kiwi"], []⟩
  else Except.error ()

/-- The page environment paired with mixedCatFetch. -/
def mixedPageFetch : String → Except Unit PageDoc := fun u =>
  if u = "https://en.wikipedia.org/wiki/Emu" then
    Except.ok ⟨some "Emu", true, some ["Birds of Australia"], true, []⟩
  else if u = "https://en.wikipedia.org/wiki/Kiwi" then
    Except.ok ⟨some "Kiwi", true, some ["Birds of New Zealand"], true,
      ["The kiwi is a flightless bird."]⟩
  else Except.error ()

/-- Witness for the amended C1 on a concrete graph mixing a well-formed
topical page with a topical page whose body is empty. -/
theorem scrape_animals_drains_and_counts_witness :
    (scrape_animals mixedCatFetch (extract_improved mixedPageFetch)
        (1 + ({"https://en.wikipedia.org/wiki/Category:Animals"} : Finset String).card * (0 + 1))
        ⟨∅, ∅, []⟩ "https://en.wikipedia.org/wiki/Category:Animals").2 = [] ∧
    (scrape_animals mixedCatFetch (extract_improved mixedPageFetch)
        (1 + ({"https://en.wikipedia.org/wiki/Category:Animals"} : Finset String).card * (0 + 1))
        ⟨∅, ∅, []⟩ "https://en.wikipedia.org/wiki/Category:Animals").1.animal_data.length =
      (((scrape_animals mixedCatFetch (extract_improved mixedPageFetch)
            (1 + ({"https://en.wikipedia.org/wiki/Category:Animals"} : Finset String).card * (0 + 1))
            ⟨∅, ∅, []⟩ "https://en.wikipedia.org/wiki/Category:Animals").1.visited_categories.biUnion
          (fun c => (get_subcategories_and_pages mixedCatFetch c).2.toFinset)).filter
        (fun p => (topical_fetched (mixedPageFetch p) && wf_fetched (mixedPageFetch p))
          = true)).card := by
  apply scrape_animals_drains_and_counts mixedCatFetch mixedPageFetch
    {"https://en.wikipedia.org/wiki/Category:Animals"} 0
    "https://en.wikipedia.org/wiki/Category:Animals"
  · decide
  · intro c x hx
    by_cases h1 : c = "https://en.wikipedia.org/wiki/Category:Animals"
    · subst h1
      have he : (get_subcategories_and_pages mixedCatFetch
          "https://en.wikipedia.org/wiki/Category:Animals").1 = [] := by decide
      rw [he] at hx
      exact absurd hx (List.not_mem_nil x)
    · have he : get_subcategories_and_pages mixedCatFetch c = ([], []) := by
        simp [get_subcategories_and_pages, mixedCatFetch, h1]
      rw [he] at hx
      exact absurd hx (List.not_mem_nil x)
  · intro c
    by_cases h1 : c = "https://en.wikipedia.org/wiki/Category:Animals"
    · subst h1
      decide
    · have he : get_subcategories_and_pages mixedCatFetch c = ([], []) := by
        simp [get_subcategories_and_pages, mixedCatFetch, h1]
      rw [he]
      decide

end Scraper
